import Mathlib

/-!
Verification development for a CSV upload-and-summarize service.

The source under study is a small web backend: `parse_csv` reads a CSV
with recognized header aliases, coerces the three numeric columns and
drops rows that fail coercion; `calculate_summary` aggregates count,
mean, min, max (rounded to 2 decimals) and a per-type histogram;
`UploadSession.cleanup_old_sessions` keeps only the most recent 5
sessions per user, cascading deletion to equipment rows; views glue the
pipeline together and `generate_pdf_report` formats the results.

Numbers are modelled as rationals; Python `round(x, 2)` is modelled as
round-half-to-even at two decimal places. Pandas `to_numeric` with
coercion is modelled by an abstract cell type: a cell either carries a
number or it does not.
-/

namespace EquipViz

/-- One parsed equipment row (model of the `Equipment` fields that
`parse_csv` produces and the views consume). -/
structure Equip where
  name : String
  equipment_type : String
  flowrate : ℚ
  pressure : ℚ
  temperature : ℚ
  deriving Repr, DecidableEq, Inhabited

/-- The summary dictionary produced by `calculate_summary`.
`type_distribution` is an insertion-ordered association list, modelling
a Python dict built key by key. -/
structure Summary where
  total_count : ℕ
  avg_flowrate : ℚ
  avg_pressure : ℚ
  avg_temperature : ℚ
  min_flowrate : ℚ
  max_flowrate : ℚ
  min_pressure : ℚ
  max_pressure : ℚ
  min_temperature : ℚ
  max_temperature : ℚ
  type_distribution : List (String × ℕ)
  deriving Repr, DecidableEq, Inhabited

/-- Python `round(x, 2)`: round to two decimal places, ties to even. -/
def round2 (q : ℚ) : ℚ :=
  ((if q * 100 - (⌊q * 100⌋ : ℚ) < 1/2 then ⌊q * 100⌋
    else if 1/2 < q * 100 - (⌊q * 100⌋ : ℚ) then ⌊q * 100⌋ + 1
    else if ⌊q * 100⌋ % 2 = 0 then ⌊q * 100⌋ else ⌊q * 100⌋ + 1 : ℤ) : ℚ) / 100

/-- Python `min` over a list (the empty case is unreachable in the
source, which guards on emptiness first). -/
def pyMin : List ℚ → ℚ
  | [] => 0
  | x :: xs => xs.foldl min x

/-- Python `max` over a list (empty case unreachable, as for `pyMin`). -/
def pyMax : List ℚ → ℚ
  | [] => 0
  | x :: xs => xs.foldl max x

/-- One step of building the type histogram:
`type_counts[t] = type_counts.get(t, 0) + 1` on an insertion-ordered
association list. -/
def bump : List (String × ℕ) → String → List (String × ℕ)
  | [], t => [(t, 1)]
  | (k, v) :: rest, t =>
      if k = t then (k, v + 1) :: rest else (k, v) :: bump rest t

/-- The `type_counts` loop of `calculate_summary`. -/
def typeCounts (rows : List Equip) : List (String × ℕ) :=
  rows.foldl (fun d r => bump d r.equipment_type) []

/-- The all-zero summary returned for an empty queryset. -/
def emptySummary : Summary :=
  { total_count := 0
    avg_flowrate := 0
    avg_pressure := 0
    avg_temperature := 0
    min_flowrate := 0
    max_flowrate := 0
    min_pressure := 0
    max_pressure := 0
    min_temperature := 0
    max_temperature := 0
    type_distribution := [] }

/-- Model of `calculate_summary` from `api/utils.py`: empty guard, then
count, rounded mean, min and max of each numeric column, and the type
histogram. -/
def calculate_summary (rows : List Equip) : Summary :=
  if rows.isEmpty then emptySummary
  else
    let flowrates := rows.map Equip.flowrate
    let pressures := rows.map Equip.pressure
    let temperatures := rows.map Equip.temperature
    { total_count := flowrates.length
      avg_flowrate := round2 (flowrates.sum / (flowrates.length : ℚ))
      avg_pressure := round2 (pressures.sum / (pressures.length : ℚ))
      avg_temperature := round2 (temperatures.sum / (temperatures.length : ℚ))
      min_flowrate := round2 (pyMin flowrates)
      max_flowrate := round2 (pyMax flowrates)
      min_pressure := round2 (pyMin pressures)
      max_pressure := round2 (pyMax pressures)
      min_temperature := round2 (pyMin temperatures)
      max_temperature := round2 (pyMax temperatures)
      type_distribution := typeCounts rows }

/-- A CSV cell after reading: either a value that pandas `to_numeric`
can convert, or text or emptiness that it coerces to NaN. -/
inductive Cell where
  | num (q : ℚ)
  | text (s : String)
  | empty
  deriving Repr, DecidableEq

/-- Model of `pd.to_numeric(..., errors="coerce")` followed by the
`dropna` test: `some` exactly when the cell is numeric. -/
def toNumeric : Cell → Option ℚ
  | .num q => some q
  | .text _ => none
  | .empty => none

/-- String content of a cell, used for the two text columns. -/
def cellStr : Cell → String
  | .num q => toString q
  | .text s => s
  | .empty => ""

/-- One raw CSV row: an association from column names to cells. -/
abbrev RawRow := List (String × Cell)

/-- A read CSV file: header names plus raw rows. -/
structure CSVFile where
  headers : List String
  rows : List RawRow
  deriving Repr, DecidableEq

/-- The `column_mapping` renaming of `parse_csv`. -/
def renameKey (k : String) : String :=
  if k = "Equipment Name" then "name"
  else if k = "Type" then "equipment_type"
  else if k = "Flowrate" then "flowrate"
  else if k = "Pressure" then "pressure"
  else if k = "Temperature" then "temperature"
  else k

/-- Renaming applied to a row's keys. -/
def renameRow (row : RawRow) : RawRow :=
  row.map (fun p => (renameKey p.1, p.2))

/-- The `required_cols` list of `parse_csv`. -/
def required_cols : List String :=
  ["name", "equipment_type", "flowrate", "pressure", "temperature"]

/-- Cell of a row under a column name (missing key reads as empty). -/
def getCell (row : RawRow) (k : String) : Cell :=
  match row.lookup k with
  | some c => c
  | none => .empty

/-- Columns still missing after renaming, in `required_cols` order. -/
def missingCols (file : CSVFile) : List String :=
  required_cols.filter (fun c => ! (file.headers.map renameKey).contains c)

/-- Numeric coercion and the `dropna` test for one row: the row
survives exactly when all three numeric fields convert. -/
def rowToEquip (row : RawRow) : Option Equip :=
  match toNumeric (getCell row "flowrate"), toNumeric (getCell row "pressure"),
        toNumeric (getCell row "temperature") with
  | some f, some p, some t =>
      some { name := cellStr (getCell row "name")
             equipment_type := cellStr (getCell row "equipment_type")
             flowrate := f, pressure := p, temperature := t }
  | _, _, _ => none

/-- Model of `parse_csv` from `api/utils.py`: rename known headers,
fail when a required column is absent, otherwise coerce the numeric
columns and drop the rows where coercion fails. -/
def parse_csv (file : CSVFile) : Except String (List Equip) :=
  if (missingCols file).isEmpty then
    .ok ((file.rows.map renameRow).filterMap rowToEquip)
  else
    .error ("Missing required columns: " ++ String.intercalate ", " (missingCols file))

/-- A stored `UploadSession` row. Timestamps are logical clock values:
`auto_now_add` with a monotonically increasing clock. -/
structure Session where
  id : ℕ
  userId : ℕ
  filename : String
  uploaded_at : ℕ
  record_count : ℕ
  summary_json : Option Summary
  deriving Repr, DecidableEq

/-- The database: session rows and equipment rows tagged with their
session id (the foreign key), plus id and clock counters. -/
structure DB where
  sessions : List Session
  equipment : List (ℕ × Equip)
  nextSessionId : ℕ
  clock : ℕ
  deriving Repr, DecidableEq

/-- Default `Equipment.Meta` ordering: by name ascending. -/
def byName (a b : Equip) : Prop := a.name ≤ b.name

instance : DecidableRel byName := fun a b =>
  inferInstanceAs (Decidable (a.name ≤ b.name))

instance : IsTotal Equip byName := ⟨fun a b => le_total a.name b.name⟩

instance : IsTrans Equip byName := ⟨fun _ _ _ h h2 => le_trans h h2⟩

/-- The `order_by("-uploaded_at")` relation: more recent first. -/
def recencyDesc (a b : Session) : Prop := b.uploaded_at ≤ a.uploaded_at

instance : DecidableRel recencyDesc := fun a b =>
  inferInstanceAs (Decidable (b.uploaded_at ≤ a.uploaded_at))

instance : IsTotal Session recencyDesc := ⟨fun a b => le_total b.uploaded_at a.uploaded_at⟩

instance : IsTrans Session recencyDesc := ⟨fun _ _ _ h h2 => le_trans h2 h⟩

/-- Sessions of one user, in storage order. -/
def userSessions (db : DB) (u : ℕ) : List Session :=
  db.sessions.filter (fun s => s.userId == u)

/-- Sessions of one user ordered by `-uploaded_at`, as Django queries
them. -/
def userSessionsByRecency (db : DB) (u : ℕ) : List Session :=
  List.insertionSort recencyDesc (userSessions db u)

/-- Model of `session.equipment.all()` and of
`Equipment.objects.filter(session_id=...)`: the session's rows under
the model's default name ordering. -/
def queryEquipment (db : DB) (sid : ℕ) : List Equip :=
  List.insertionSort byName ((db.equipment.filter (fun p => p.1 == sid)).map Prod.snd)

/-- The `ids_to_delete` of `cleanup_old_sessions`: ids of the user's
sessions beyond the `keep` most recent. -/
def deletedIds (db : DB) (user keep : ℕ) : List ℕ :=
  ((userSessionsByRecency db user).drop keep).map Session.id

/-- Model of `UploadSession.cleanup_old_sessions`: order the user's
sessions by recency, and when more than `keep` exist delete the excess
ids; the cascade removes their equipment rows. -/
def cleanup_old_sessions (db : DB) (user : ℕ) (keep : ℕ) : DB :=
  if keep < (userSessionsByRecency db user).length then
    { db with
      sessions := db.sessions.filter (fun s => ! (deletedIds db user keep).contains s.id)
      equipment := db.equipment.filter (fun p => ! (deletedIds db user keep).contains p.1) }
  else db

/-- Model of the Python `str.endswith` check on the uploaded filename,
phrased over the character list of the string. -/
def strEndsWith (s suffix : String) : Bool :=
  List.isSuffixOf suffix.toList s.toList

/-- Response of the upload endpoint. -/
inductive UploadResult where
  | badRequest (error : String)
  | created (session_id : ℕ) (record_count : ℕ) (summary : Summary)
  deriving Repr, DecidableEq

/-- The session row created by `UploadSession.objects.create` during an
upload: fresh id, the logical now, the parsed row count, no summary
yet. -/
def newSessionOf (db : DB) (user : ℕ) (filename : String) (n : ℕ) : Session :=
  { id := db.nextSessionId, userId := user, filename := filename
    uploaded_at := db.clock, record_count := n, summary_json := none }

/-- Database state after session creation and `bulk_create` of the
equipment rows. -/
def dbAfterInsert (db : DB) (user : ℕ) (filename : String) (rows : List Equip) : DB :=
  { sessions := newSessionOf db user filename rows.length :: db.sessions
    equipment := db.equipment ++ rows.map (fun r => (db.nextSessionId, r))
    nextSessionId := db.nextSessionId + 1
    clock := db.clock + 1 }

/-- The summary the upload computes and caches:
`calculate_summary(session.equipment.all())` right after the bulk
insert. -/
def uploadSummary (db : DB) (user : ℕ) (filename : String) (rows : List Equip) : Summary :=
  calculate_summary (queryEquipment (dbAfterInsert db user filename rows) db.nextSessionId)

/-- Database state after `session.summary = summary; session.save()`. -/
def dbAfterSave (db : DB) (user : ℕ) (filename : String) (rows : List Equip) : DB :=
  { dbAfterInsert db user filename rows with
    sessions := (dbAfterInsert db user filename rows).sessions.map (fun s =>
      if s.id = db.nextSessionId then
        { s with summary_json := some (uploadSummary db user filename rows) }
      else s) }

/-- Final database state of a successful upload: the retention cleanup
runs last, keeping the 5 most recent sessions. -/
def uploadFinalDB (db : DB) (user : ℕ) (filename : String) (rows : List Equip) : DB :=
  cleanup_old_sessions (dbAfterSave db user filename rows) user 5

/-- Model of `UploadCSVView.post`: extension check, parse, create the
session and its equipment rows, compute and cache the summary, run the
retention cleanup, respond. -/
def uploadCSV (db : DB) (user : ℕ) (filename : String) (file : CSVFile) :
    UploadResult × DB :=
  if ! strEndsWith filename ".csv" then
    (.badRequest "File must be a CSV", db)
  else
    match parse_csv file with
    | .error e => (.badRequest e, db)
    | .ok rows =>
      (.created db.nextSessionId rows.length (uploadSummary db user filename rows),
       uploadFinalDB db user filename rows)

/-- The latest session of a user: `filter(user=...).first()` under the
model's `-uploaded_at` default ordering. -/
def latestSession (db : DB) (u : ℕ) : Option Session :=
  (userSessionsByRecency db u).head?

/-- Whether a session with this id belongs to this user, as the
`session__user` join condition tests. -/
def sessionOwned (db : DB) (sid u : ℕ) : Bool :=
  db.sessions.any (fun s => s.id == sid && s.userId == u)

/-- Model of `EquipmentListView.get_queryset`: explicit session id
scoped to the user, else the latest session, else no rows. -/
def equipmentListView (db : DB) (u : ℕ) : Option ℕ → List Equip
  | some sid => if sessionOwned db sid u then queryEquipment db sid else []
  | none =>
      match latestSession db u with
      | some s => queryEquipment db s.id
      | none => []

/-- Model of `HistoryListView.get_queryset`: the user's five most
recent sessions. -/
def historyView (db : DB) (u : ℕ) : List Session :=
  (userSessionsByRecency db u).take 5

/-- A JSON-ish value, just rich enough for the empty summary payload. -/
inductive JVal where
  | null
  | num (q : ℚ)
  | emptyDict
  deriving Repr, DecidableEq

/-- The literal dictionary `SummaryView.get` returns when the user has
no sessions, key for key as in `api/views.py`. -/
def emptySummaryResponse : List (String × JVal) :=
  [("session_id", .null), ("filename", .null), ("uploaded_at", .null),
   ("total_count", .num 0), ("avg_flowrate", .num 0), ("avg_pressure", .num 0),
   ("avg_temperature", .num 0), ("min_flowrate", .num 0), ("max_flowrate", .num 0),
   ("type_distribution", .emptyDict)]

/-- Response of the summary endpoint. -/
inductive SummaryResp where
  | notFound
  | emptyShape (fields : List (String × JVal))
  | data (session_id : ℕ) (filename : String) (uploaded_at : ℕ) (sm : Summary)
  deriving Repr, DecidableEq

/-- Model of `SummaryView.get`: explicit id or latest session, empty
shape when the user has no sessions, and a fresh recomputation of the
summary from the persisted rows. -/
def summaryView (db : DB) (u : ℕ) : Option ℕ → SummaryResp
  | some sid =>
      match (db.sessions.filter (fun s => s.id == sid && s.userId == u)).head? with
      | some s => .data s.id s.filename s.uploaded_at (calculate_summary (queryEquipment db s.id))
      | none => .notFound
  | none =>
      match latestSession db u with
      | some s => .data s.id s.filename s.uploaded_at (calculate_summary (queryEquipment db s.id))
      | none => .emptyShape emptySummaryResponse

/-- Model of `PDFReportView.get` session resolution: explicit id scoped
to the user, else the latest session, else nothing to report on. -/
def resolveSession (db : DB) (u : ℕ) : Option ℕ → Option Session
  | some sid => (db.sessions.filter (fun s => s.id == sid && s.userId == u)).head?
  | none => latestSession db u

/-- The structured content of the generated document: title block,
metadata lines, and the three tables as rows of formatted strings. -/
structure Report where
  title : String
  fileLine : String
  uploadedLine : String
  totalLine : String
  summaryTable : List (List String)
  typeTable : List (List String)
  eqTable : List (List String)
  deriving Repr, DecidableEq

/-- The equipment table row format of `generate_pdf_report`. -/
def eqRowCells (e : Equip) : List String :=
  [e.name, e.equipment_type, toString e.flowrate, toString e.pressure, toString e.temperature]

/-- Model of `generate_pdf_report` from `api/utils.py`: formats the
session metadata, the summary statistics table, the type distribution
table, and the equipment table truncated to the first 50 rows. Every
numeric string is a rendering of a value received as input. -/
def generate_pdf_report (session : Session) (equipment_list : List Equip)
    (summary : Summary) : Report :=
  { title := "Chemical Equipment Parameter Report"
    fileLine := "File: " ++ session.filename
    uploadedLine := "Uploaded: " ++ toString session.uploaded_at
    totalLine := "Total Records: " ++ toString summary.total_count
    summaryTable :=
      [["Metric", "Flowrate", "Pressure", "Temperature"],
       ["Average", toString summary.avg_flowrate, toString summary.avg_pressure,
        toString summary.avg_temperature],
       ["Minimum", toString summary.min_flowrate, toString summary.min_pressure,
        toString summary.min_temperature],
       ["Maximum", toString summary.max_flowrate, toString summary.max_pressure,
        toString summary.max_temperature]]
    typeTable :=
      ["Type", "Count"] :: summary.type_distribution.map (fun p => [p.1, toString p.2])
    eqTable :=
      ["Name", "Type", "Flowrate", "Pressure", "Temperature"] ::
        (equipment_list.take 50).map eqRowCells }

/-- Model of `PDFReportView.get`: resolve the session, then render the
report from the session, its (name-ordered) equipment rows, and a fresh
summary computed from those rows. -/
def pdfReportView (db : DB) (u : ℕ) (o : Option ℕ) : Option Report :=
  match resolveSession db u o with
  | some s => some (generate_pdf_report s (queryEquipment db s.id)
      (calculate_summary (queryEquipment db s.id)))
  | none => none

/-- The database before any upload. -/
def emptyDB : DB := { sessions := [], equipment := [], nextSessionId := 1, clock := 0 }

/-- A well-formed CSV file with one valid row, used in scenarios. -/
def sampleCSV : CSVFile :=
  { headers := ["Equipment Name", "Type", "Flowrate", "Pressure", "Temperature"]
    rows := [[("Equipment Name", .text "Pump1"), ("Type", .text "Pump"),
              ("Flowrate", .num 10), ("Pressure", .num 5), ("Temperature", .num 20)]] }

/-- State after `n` sequential uploads of `sampleCSV` by user 1. -/
def afterUploads : ℕ → DB
  | 0 => emptyDB
  | n + 1 => (uploadCSV (afterUploads n) 1 "a.csv" sampleCSV).2

/-- Structural well-formedness of a database state: ids below the id
counter, timestamps below the clock, equipment attached to ids below
the counter, and no duplicate session ids or timestamps. Every state
reachable by the upload pipeline satisfies this. -/
def DB.WF (db : DB) : Prop :=
  (∀ s ∈ db.sessions, s.id < db.nextSessionId ∧ s.uploaded_at < db.clock) ∧
  (∀ p ∈ db.equipment, p.1 < db.nextSessionId) ∧
  (db.sessions.map Session.id).Nodup ∧
  (db.sessions.map Session.uploaded_at).Nodup

instance (db : DB) : Decidable db.WF := by
  unfold DB.WF
  infer_instance

/-- First example row from the spec's worked example. -/
def pumpRow1 : Equip :=
  { name := "Pump1", equipment_type := "Pump", flowrate := 10, pressure := 5, temperature := 20 }

/-- Second example row from the spec's worked example. -/
def pumpRow2 : Equip :=
  { name := "Pump2", equipment_type := "Pump", flowrate := 20, pressure := 15, temperature := 40 }

/-- A CSV file like `sampleCSV` but with a second row whose pressure is
text and a third row whose temperature is missing: both must be
dropped by parsing. -/
def mixedCSV : CSVFile :=
  { headers := ["Equipment Name", "Type", "Flowrate", "Pressure", "Temperature"]
    rows := [[("Equipment Name", .text "Pump1"), ("Type", .text "Pump"),
              ("Flowrate", .num 10), ("Pressure", .num 5), ("Temperature", .num 20)],
             [("Equipment Name", .text "Bad1"), ("Type", .text "Pump"),
              ("Flowrate", .num 1), ("Pressure", .text "oops"), ("Temperature", .num 2)],
             [("Equipment Name", .text "Bad2"), ("Type", .text "Valve"),
              ("Flowrate", .num 3), ("Pressure", .num 4), ("Temperature", .empty)],
             [("Equipment Name", .text "Pump2"), ("Type", .text "Pump"),
              ("Flowrate", .num 20), ("Pressure", .num 15), ("Temperature", .num 40)]] }

/-- A CSV file missing the Pressure and Temperature columns. -/
def truncatedCSV : CSVFile :=
  { headers := ["Equipment Name", "Type", "Flowrate"]
    rows := [[("Equipment Name", .text "Pump1"), ("Type", .text "Pump"),
              ("Flowrate", .num 10)]] }

/-- Two rows whose upload order disagrees with name order. -/
def eqRowB : Equip :=
  { name := "B", equipment_type := "Pump", flowrate := 1, pressure := 1, temperature := 1 }

/-- Second of the two out-of-order rows. -/
def eqRowA : Equip :=
  { name := "A", equipment_type := "Valve", flowrate := 2, pressure := 2, temperature := 2 }

/-- A database whose single session stores its rows in upload order
B then A. -/
def outOfOrderDB : DB :=
  { sessions := [{ id := 1, userId := 1, filename := "a.csv", uploaded_at := 0,
                   record_count := 2, summary_json := none }]
    equipment := [(1, eqRowB), (1, eqRowA)]
    nextSessionId := 2
    clock := 1 }

/-- The parsed rows of `sampleCSV`. -/
def sampleRows : List Equip :=
  [{ name := "Pump1", equipment_type := "Pump", flowrate := 10, pressure := 5,
     temperature := 20 }]

theorem foldl_min_le_init (xs : List ℚ) (a : ℚ) : xs.foldl min a ≤ a := by
  induction xs generalizing a with
  | nil => exact le_refl a
  | cons x xs ih =>
      exact le_trans (ih (min a x)) (min_le_left a x)

theorem foldl_min_le_mem (xs : List ℚ) (a : ℚ) :
    ∀ y ∈ xs, xs.foldl min a ≤ y := by
  induction xs generalizing a with
  | nil => intro y hy; cases hy
  | cons x xs ih =>
      intro y hy
      rcases List.mem_cons.mp hy with hy | hy
      · subst hy
        exact le_trans (foldl_min_le_init xs (min a y)) (min_le_right a y)
      · exact ih (min a x) y hy

theorem foldl_min_mem (xs : List ℚ) (a : ℚ) :
    xs.foldl min a = a ∨ xs.foldl min a ∈ xs := by
  induction xs generalizing a with
  | nil => exact Or.inl rfl
  | cons x xs ih =>
      have hfold : (x :: xs).foldl min a = xs.foldl min (min a x) := rfl
      rcases ih (min a x) with h | h
      · rcases le_total a x with hax | hax
        · exact Or.inl (by rw [hfold, h, min_eq_left hax])
        · refine Or.inr ?_
          rw [hfold, h, min_eq_right hax]
          exact List.mem_cons_self x xs
      · exact Or.inr (List.mem_cons_of_mem x (hfold ▸ h))

theorem foldl_max_init_le (xs : List ℚ) (a : ℚ) : a ≤ xs.foldl max a := by
  induction xs generalizing a with
  | nil => exact le_refl a
  | cons x xs ih =>
      exact le_trans (le_max_left a x) (ih (max a x))

theorem foldl_max_mem_le (xs : List ℚ) (a : ℚ) :
    ∀ y ∈ xs, y ≤ xs.foldl max a := by
  induction xs generalizing a with
  | nil => intro y hy; cases hy
  | cons x xs ih =>
      intro y hy
      rcases List.mem_cons.mp hy with hy | hy
      · subst hy
        exact le_trans (le_max_right a y) (foldl_max_init_le xs (max a y))
      · exact ih (max a x) y hy

theorem foldl_max_mem (xs : List ℚ) (a : ℚ) :
    xs.foldl max a = a ∨ xs.foldl max a ∈ xs := by
  induction xs generalizing a with
  | nil => exact Or.inl rfl
  | cons x xs ih =>
      have hfold : (x :: xs).foldl max a = xs.foldl max (max a x) := rfl
      rcases ih (max a x) with h | h
      · rcases le_total x a with hax | hax
        · exact Or.inl (by rw [hfold, h, max_eq_left hax])
        · refine Or.inr ?_
          rw [hfold, h, max_eq_right hax]
          exact List.mem_cons_self x xs
      · exact Or.inr (List.mem_cons_of_mem x (hfold ▸ h))

theorem pyMin_mem (l : List ℚ) (h : l ≠ []) : pyMin l ∈ l := by
  match l with
  | [] => exact absurd rfl h
  | x :: xs =>
      show xs.foldl min x ∈ x :: xs
      rcases foldl_min_mem xs x with h2 | h2
      · rw [h2]; exact List.mem_cons_self x xs
      · exact List.mem_cons_of_mem x h2

theorem pyMin_le (l : List ℚ) (y : ℚ) (hy : y ∈ l) : pyMin l ≤ y := by
  match l with
  | [] => cases hy
  | x :: xs =>
      rcases List.mem_cons.mp hy with h | h
      · exact h ▸ foldl_min_le_init xs x
      · exact foldl_min_le_mem xs x y h

theorem pyMax_mem (l : List ℚ) (h : l ≠ []) : pyMax l ∈ l := by
  match l with
  | [] => exact absurd rfl h
  | x :: xs =>
      show xs.foldl max x ∈ x :: xs
      rcases foldl_max_mem xs x with h2 | h2
      · rw [h2]; exact List.mem_cons_self x xs
      · exact List.mem_cons_of_mem x h2

theorem le_pyMax (l : List ℚ) (y : ℚ) (hy : y ∈ l) : y ≤ pyMax l := by
  match l with
  | [] => cases hy
  | x :: xs =>
      rcases List.mem_cons.mp hy with h | h
      · exact h ▸ foldl_max_init_le xs x
      · exact foldl_max_mem_le xs x y h

theorem pyMin_perm {l l2 : List ℚ} (h : l.Perm l2) : pyMin l = pyMin l2 := by
  rcases eq_or_ne l [] with rfl | hne
  · rw [h.nil_eq.symm]
  · have hne2 : l2 ≠ [] := fun h2 => hne (List.Perm.eq_nil (h2 ▸ h))
    exact le_antisymm
      (pyMin_le l (pyMin l2) (h.mem_iff.mpr (pyMin_mem l2 hne2)))
      (pyMin_le l2 (pyMin l) (h.mem_iff.mp (pyMin_mem l hne)))

theorem pyMax_perm {l l2 : List ℚ} (h : l.Perm l2) : pyMax l = pyMax l2 := by
  rcases eq_or_ne l [] with rfl | hne
  · rw [h.nil_eq.symm]
  · have hne2 : l2 ≠ [] := fun h2 => hne (List.Perm.eq_nil (h2 ▸ h))
    exact le_antisymm
      (le_pyMax l2 (pyMax l) (h.mem_iff.mp (pyMax_mem l hne)))
      (le_pyMax l (pyMax l2) (h.mem_iff.mpr (pyMax_mem l2 hne2)))

theorem round2_of_mul_eq (q : ℚ) (m : ℤ) (h : q * 100 = (m : ℚ)) :
    round2 q = (m : ℚ) / 100 := by
  unfold round2
  rw [h, Int.floor_intCast]
  norm_num

theorem lookup_bump (d : List (String × ℕ)) (s t : String) :
    List.lookup t (bump d s) =
      if s = t then some ((List.lookup t d).getD 0 + 1) else List.lookup t d := by
  induction d with
  | nil =>
      by_cases h : s = t
      · subst h; simp [bump, List.lookup]
      · have hb : (t == s) = false := beq_eq_false_iff_ne.mpr (fun h2 => h h2.symm)
        simp [bump, List.lookup, h, hb]
  | cons p rest ih =>
      obtain ⟨k, v⟩ := p
      by_cases hk : k = s
      · subst hk
        by_cases ht : k = t
        · subst ht; simp [bump, List.lookup]
        · have hb : (t == k) = false := beq_eq_false_iff_ne.mpr (fun h2 => ht h2.symm)
          simp [bump, List.lookup, ht, hb]
      · by_cases ht : k = t
        · subst ht
          have hs : ¬ s = k := fun h2 => hk h2.symm
          simp [bump, List.lookup, hk, hs]
        · have hb : (t == k) = false := beq_eq_false_iff_ne.mpr (fun h2 => ht h2.symm)
          simp [bump, List.lookup, hk, hb, ih]

theorem lookup_foldl_bump (rows : List Equip) (d : List (String × ℕ)) (t : String) :
    List.lookup t (rows.foldl (fun d r => bump d r.equipment_type) d) =
      if rows.countP (fun r => r.equipment_type == t) = 0 then List.lookup t d
      else some ((List.lookup t d).getD 0 + rows.countP (fun r => r.equipment_type == t)) := by
  induction rows generalizing d with
  | nil => simp
  | cons r rest ih =>
      simp only [List.foldl_cons, List.countP_cons]
      rw [ih, lookup_bump]
      by_cases h : r.equipment_type = t
      · have hb : (r.equipment_type == t) = true := beq_iff_eq.mpr h
        simp only [hb, if_pos h, if_true, Option.getD_some]
        rcases Nat.eq_zero_or_pos (rest.countP (fun r => r.equipment_type == t)) with h0 | h0
        · simp [h0]
        · have h1 : ¬ rest.countP (fun r => r.equipment_type == t) = 0 := by omega
          have h2 : ¬ rest.countP (fun r => r.equipment_type == t) + 1 = 0 := by omega
          simp only [h1, if_false, h2, Option.getD_some]
          congr 1
          omega
      · have hb : (r.equipment_type == t) = false := beq_eq_false_iff_ne.mpr h
        simp [hb, h]

theorem lookup_typeCounts (rows : List Equip) (t : String) :
    List.lookup t (typeCounts rows) =
      if rows.countP (fun r => r.equipment_type == t) = 0 then none
      else some (rows.countP (fun r => r.equipment_type == t)) := by
  unfold typeCounts
  rw [lookup_foldl_bump]
  simp

theorem filterMap_eq_map_getD_filter {α β : Type} [Inhabited β] (f : α → Option β)
    (l : List α) :
    l.filterMap f = (l.filter (fun a => (f a).isSome)).map (fun a => (f a).getD default) := by
  induction l with
  | nil => rfl
  | cons a rest ih =>
      cases h : f a with
      | none => simp [List.filterMap_cons, h, ih]
      | some b => simp [List.filterMap_cons, h, ih]

theorem total_count_eq_length (rows : List Equip) :
    (calculate_summary rows).total_count = rows.length := by
  unfold calculate_summary
  by_cases h : rows.isEmpty
  · have : rows = [] := List.isEmpty_iff.mp h
    subst this
    rfl
  · simp [h, emptySummary]

theorem calculate_summary_nonempty (rows : List Equip) (h : rows.isEmpty = false) :
    calculate_summary rows =
      { total_count := (rows.map Equip.flowrate).length
        avg_flowrate := round2 ((rows.map Equip.flowrate).sum / ((rows.map Equip.flowrate).length : ℚ))
        avg_pressure := round2 ((rows.map Equip.pressure).sum / ((rows.map Equip.pressure).length : ℚ))
        avg_temperature := round2 ((rows.map Equip.temperature).sum / ((rows.map Equip.temperature).length : ℚ))
        min_flowrate := round2 (pyMin (rows.map Equip.flowrate))
        max_flowrate := round2 (pyMax (rows.map Equip.flowrate))
        min_pressure := round2 (pyMin (rows.map Equip.pressure))
        max_pressure := round2 (pyMax (rows.map Equip.pressure))
        min_temperature := round2 (pyMin (rows.map Equip.temperature))
        max_temperature := round2 (pyMax (rows.map Equip.temperature))
        type_distribution := typeCounts rows } := by
  unfold calculate_summary
  rw [h]
  simp

theorem calculate_summary_perm {rows rows2 : List Equip} (h : rows.Perm rows2) :
    (calculate_summary rows).total_count = (calculate_summary rows2).total_count ∧
    (calculate_summary rows).avg_flowrate = (calculate_summary rows2).avg_flowrate ∧
    (calculate_summary rows).avg_pressure = (calculate_summary rows2).avg_pressure ∧
    (calculate_summary rows).avg_temperature = (calculate_summary rows2).avg_temperature ∧
    (calculate_summary rows).min_flowrate = (calculate_summary rows2).min_flowrate ∧
    (calculate_summary rows).max_flowrate = (calculate_summary rows2).max_flowrate ∧
    (calculate_summary rows).min_pressure = (calculate_summary rows2).min_pressure ∧
    (calculate_summary rows).max_pressure = (calculate_summary rows2).max_pressure ∧
    (calculate_summary rows).min_temperature = (calculate_summary rows2).min_temperature ∧
    (calculate_summary rows).max_temperature = (calculate_summary rows2).max_temperature ∧
    ∀ t, List.lookup t (calculate_summary rows).type_distribution =
      List.lookup t (calculate_summary rows2).type_distribution := by
  rcases eq_or_ne rows [] with rfl | hne
  · rw [← h.nil_eq]
    exact ⟨rfl, rfl, rfl, rfl, rfl, rfl, rfl, rfl, rfl, rfl, fun t => rfl⟩
  · have hne2 : rows2 ≠ [] := fun h2 => hne (List.Perm.eq_nil (h2 ▸ h))
    have he : rows.isEmpty = false := by simpa [List.isEmpty_iff] using hne
    have he2 : rows2.isEmpty = false := by simpa [List.isEmpty_iff] using hne2
    rw [calculate_summary_nonempty rows he, calculate_summary_nonempty rows2 he2]
    have hlf := (h.map Equip.flowrate).length_eq
    have hsf := (h.map Equip.flowrate).sum_eq
    have hsp := (h.map Equip.pressure).sum_eq
    have hst := (h.map Equip.temperature).sum_eq
    have hlp := (h.map Equip.pressure).length_eq
    have hlt2 := (h.map Equip.temperature).length_eq
    refine ⟨by simp [hlf], by simp [hlf, hsf], by simp [hlp, hsp], by simp [hlt2, hst],
      by simp [pyMin_perm (h.map Equip.flowrate)], by simp [pyMax_perm (h.map Equip.flowrate)],
      by simp [pyMin_perm (h.map Equip.pressure)], by simp [pyMax_perm (h.map Equip.pressure)],
      by simp [pyMin_perm (h.map Equip.temperature)], by simp [pyMax_perm (h.map Equip.temperature)],
      fun t => ?_⟩
    show List.lookup t (typeCounts rows) = List.lookup t (typeCounts rows2)
    rw [lookup_typeCounts, lookup_typeCounts, h.countP_eq]

/-- C6: on the empty collection `calculate_summary` returns zero for
the count and all ten numeric fields and an empty type distribution;
the division branch is never taken, so it cannot fail. -/
theorem calculate_summary_empty :
    calculate_summary [] =
      { total_count := 0, avg_flowrate := 0, avg_pressure := 0, avg_temperature := 0,
        min_flowrate := 0, max_flowrate := 0, min_pressure := 0, max_pressure := 0,
        min_temperature := 0, max_temperature := 0, type_distribution := [] } := rfl

/-- C1: on every non-empty collection `calculate_summary` returns the
record count, the rounded arithmetic mean, minimum and maximum of each
of the three numeric fields, and the occurrence count of every
equipment type; in particular the spec's two-pump example yields
total 2, average flowrate 15, minimum flowrate 10, maximum flowrate 20
and type distribution Pump = 2. -/
theorem calculate_summary_nonempty_stats (rows : List Equip) (h : rows ≠ []) :
    (calculate_summary rows).total_count = rows.length ∧
    (calculate_summary rows).avg_flowrate =
      round2 ((rows.map Equip.flowrate).sum / (rows.length : ℚ)) ∧
    (calculate_summary rows).avg_pressure =
      round2 ((rows.map Equip.pressure).sum / (rows.length : ℚ)) ∧
    (calculate_summary rows).avg_temperature =
      round2 ((rows.map Equip.temperature).sum / (rows.length : ℚ)) ∧
    (∃ m, m ∈ rows.map Equip.flowrate ∧ (∀ y ∈ rows.map Equip.flowrate, m ≤ y) ∧
      (calculate_summary rows).min_flowrate = round2 m) ∧
    (∃ m, m ∈ rows.map Equip.flowrate ∧ (∀ y ∈ rows.map Equip.flowrate, y ≤ m) ∧
      (calculate_summary rows).max_flowrate = round2 m) ∧
    (∃ m, m ∈ rows.map Equip.pressure ∧ (∀ y ∈ rows.map Equip.pressure, m ≤ y) ∧
      (calculate_summary rows).min_pressure = round2 m) ∧
    (∃ m, m ∈ rows.map Equip.pressure ∧ (∀ y ∈ rows.map Equip.pressure, y ≤ m) ∧
      (calculate_summary rows).max_pressure = round2 m) ∧
    (∃ m, m ∈ rows.map Equip.temperature ∧ (∀ y ∈ rows.map Equip.temperature, m ≤ y) ∧
      (calculate_summary rows).min_temperature = round2 m) ∧
    (∃ m, m ∈ rows.map Equip.temperature ∧ (∀ y ∈ rows.map Equip.temperature, y ≤ m) ∧
      (calculate_summary rows).max_temperature = round2 m) ∧
    (∀ t, List.lookup t (calculate_summary rows).type_distribution =
      if rows.countP (fun r => r.equipment_type == t) = 0 then none
      else some (rows.countP (fun r => r.equipment_type == t))) ∧
    (calculate_summary [pumpRow1, pumpRow2]).total_count = 2 ∧
    (calculate_summary [pumpRow1, pumpRow2]).avg_flowrate = 15 ∧
    (calculate_summary [pumpRow1, pumpRow2]).min_flowrate = 10 ∧
    (calculate_summary [pumpRow1, pumpRow2]).max_flowrate = 20 ∧
    (calculate_summary [pumpRow1, pumpRow2]).type_distribution = [("Pump", 2)] := by
  have he : rows.isEmpty = false := by simpa [List.isEmpty_iff] using h
  have hmne : ∀ f : Equip → ℚ, rows.map f ≠ [] := by
    intro f h2
    exact h (List.map_eq_nil_iff.mp h2)
  rw [calculate_summary_nonempty rows he]
  have hex : [pumpRow1, pumpRow2].isEmpty = false := rfl
  rw [calculate_summary_nonempty [pumpRow1, pumpRow2] hex]
  refine ⟨by simp, by simp, by simp, by simp,
    ⟨pyMin (rows.map Equip.flowrate), pyMin_mem _ (hmne _),
      fun y hy => pyMin_le _ y hy, by simp⟩,
    ⟨pyMax (rows.map Equip.flowrate), pyMax_mem _ (hmne _),
      fun y hy => le_pyMax _ y hy, by simp⟩,
    ⟨pyMin (rows.map Equip.pressure), pyMin_mem _ (hmne _),
      fun y hy => pyMin_le _ y hy, by simp⟩,
    ⟨pyMax (rows.map Equip.pressure), pyMax_mem _ (hmne _),
      fun y hy => le_pyMax _ y hy, by simp⟩,
    ⟨pyMin (rows.map Equip.temperature), pyMin_mem _ (hmne _),
      fun y hy => pyMin_le _ y hy, by simp⟩,
    ⟨pyMax (rows.map Equip.temperature), pyMax_mem _ (hmne _),
      fun y hy => le_pyMax _ y hy, by simp⟩,
    fun t => by simp [lookup_typeCounts], by simp, ?_, ?_, ?_, by decide⟩
  · show round2 (([pumpRow1, pumpRow2].map Equip.flowrate).sum /
        (([pumpRow1, pumpRow2].map Equip.flowrate).length : ℚ)) = 15
    have harg : ([pumpRow1, pumpRow2].map Equip.flowrate).sum /
        (([pumpRow1, pumpRow2].map Equip.flowrate).length : ℚ) = 15 := by
      simp [pumpRow1, pumpRow2]
      norm_num
    rw [harg, round2_of_mul_eq 15 1500 (by norm_num)]
    norm_num
  · show round2 (pyMin ([pumpRow1, pumpRow2].map Equip.flowrate)) = 10
    have harg : pyMin ([pumpRow1, pumpRow2].map Equip.flowrate) = 10 := by
      simp [pumpRow1, pumpRow2, pyMin]
      norm_num [min_def]
    rw [harg, round2_of_mul_eq 10 1000 (by norm_num)]
    norm_num
  · show round2 (pyMax ([pumpRow1, pumpRow2].map Equip.flowrate)) = 20
    have harg : pyMax ([pumpRow1, pumpRow2].map Equip.flowrate) = 20 := by
      simp [pumpRow1, pumpRow2, pyMax]
      norm_num [max_def]
    rw [harg, round2_of_mul_eq 20 2000 (by norm_num)]
    norm_num

/-- Witness for C1 at the spec's two-row example. -/
theorem calculate_summary_nonempty_stats_witness :
    [pumpRow1, pumpRow2] ≠ [] ∧
    (calculate_summary [pumpRow1, pumpRow2]).total_count = [pumpRow1, pumpRow2].length :=
  ⟨by decide, (calculate_summary_nonempty_stats [pumpRow1, pumpRow2] (by decide)).1⟩

/-- C2: whenever all five canonical columns are present after header
alias mapping, `parse_csv` succeeds and returns exactly the rows whose
three numeric fields all coerce, in input order; a row is kept exactly
when flowrate, pressure and temperature are all numeric. -/
theorem parse_csv_keeps_parseable_rows (file : CSVFile) (h : missingCols file = []) :
    parse_csv file =
      .ok (((file.rows.map renameRow).filter (fun r => (rowToEquip r).isSome)).map
            (fun r => (rowToEquip r).getD default)) ∧
    ∀ r : RawRow, (rowToEquip r).isSome =
      ((toNumeric (getCell r "flowrate")).isSome &&
       ((toNumeric (getCell r "pressure")).isSome &&
        (toNumeric (getCell r "temperature")).isSome)) := by
  constructor
  · unfold parse_csv
    rw [if_pos (by simp [h]), filterMap_eq_map_getD_filter]
  · intro r
    unfold rowToEquip
    cases toNumeric (getCell r "flowrate") <;>
      cases toNumeric (getCell r "pressure") <;>
      cases toNumeric (getCell r "temperature") <;> simp

/-- Witness for C2 at a CSV with two good and two bad rows. -/
theorem parse_csv_keeps_parseable_rows_witness :
    missingCols mixedCSV = [] ∧
    (parse_csv mixedCSV =
      .ok (((mixedCSV.rows.map renameRow).filter (fun r => (rowToEquip r).isSome)).map
            (fun r => (rowToEquip r).getD default)) ∧
    ∀ r : RawRow, (rowToEquip r).isSome =
      ((toNumeric (getCell r "flowrate")).isSome &&
       ((toNumeric (getCell r "pressure")).isSome &&
        (toNumeric (getCell r "temperature")).isSome))) :=
  ⟨by decide, parse_csv_keeps_parseable_rows mixedCSV (by decide)⟩

/-- C4: when a required column is still absent after alias mapping,
`parse_csv` fails with an error naming exactly the missing columns, the
upload endpoint turns it into a client error carrying those names, and
the database is unchanged: no session and no equipment rows appear. -/
theorem upload_missing_columns_rejected (db : DB) (u : ℕ) (filename : String)
    (file : CSVFile) (hcsv : strEndsWith filename ".csv" = true)
    (hmiss : missingCols file ≠ []) :
    parse_csv file =
      .error ("Missing required columns: " ++ String.intercalate ", " (missingCols file)) ∧
    (∀ c : String, c ∈ missingCols file ↔
      c ∈ required_cols ∧ ¬ c ∈ (file.headers.map renameKey)) ∧
    uploadCSV db u filename file =
      (.badRequest ("Missing required columns: " ++ String.intercalate ", " (missingCols file)),
       db) := by
  have hparse : parse_csv file =
      .error ("Missing required columns: " ++ String.intercalate ", " (missingCols file)) := by
    unfold parse_csv
    rw [if_neg]
    simpa [List.isEmpty_iff] using hmiss
  refine ⟨hparse, ?_, ?_⟩
  · intro c
    unfold missingCols
    simp [List.mem_filter]
  · unfold uploadCSV
    rw [hcsv, hparse]
    simp

/-- Witness for C4 at a CSV missing two required columns. -/
theorem upload_missing_columns_rejected_witness :
    strEndsWith "a.csv" ".csv" = true ∧ missingCols truncatedCSV ≠ [] ∧
    (parse_csv truncatedCSV =
      .error ("Missing required columns: " ++
        String.intercalate ", " (missingCols truncatedCSV)) ∧
    (∀ c : String, c ∈ missingCols truncatedCSV ↔
      c ∈ required_cols ∧ ¬ c ∈ (truncatedCSV.headers.map renameKey)) ∧
    uploadCSV emptyDB 1 "a.csv" truncatedCSV =
      (.badRequest ("Missing required columns: " ++
        String.intercalate ", " (missingCols truncatedCSV)), emptyDB)) :=
  ⟨by decide, by decide,
    upload_missing_columns_rejected emptyDB 1 "a.csv" truncatedCSV (by decide) (by decide)⟩

/-- C8: the report's equipment table is the header row followed by the
first 50 supplied rows in supplied order — never more — and all other
content is a direct formatting of the supplied session metadata and
summary values, with no numeric recomputation. -/
theorem report_caps_and_formats (session : Session) (eqs : List Equip) (sm : Summary) :
    (generate_pdf_report session eqs sm).eqTable =
      ["Name", "Type", "Flowrate", "Pressure", "Temperature"] ::
        (eqs.take 50).map eqRowCells ∧
    (generate_pdf_report session eqs sm).eqTable.tail.length ≤ 50 ∧
    (generate_pdf_report session eqs sm).eqTable.tail.length = min 50 eqs.length ∧
    (generate_pdf_report session eqs sm).summaryTable =
      [["Metric", "Flowrate", "Pressure", "Temperature"],
       ["Average", toString sm.avg_flowrate, toString sm.avg_pressure,
        toString sm.avg_temperature],
       ["Minimum", toString sm.min_flowrate, toString sm.min_pressure,
        toString sm.min_temperature],
       ["Maximum", toString sm.max_flowrate, toString sm.max_pressure,
        toString sm.max_temperature]] ∧
    (generate_pdf_report session eqs sm).typeTable =
      ["Type", "Count"] :: sm.type_distribution.map (fun p => [p.1, toString p.2]) ∧
    (generate_pdf_report session eqs sm).totalLine =
      "Total Records: " ++ toString sm.total_count := by
  refine ⟨rfl, ?_, ?_, rfl, rfl, rfl⟩
  · show ((eqs.take 50).map eqRowCells).length ≤ 50
    rw [List.length_map, List.length_take]
    exact min_le_left 50 eqs.length
  · show ((eqs.take 50).map eqRowCells).length = min 50 eqs.length
    rw [List.length_map, List.length_take]

/-- C7 counterexample: the empty-state summary payload does not carry a
minimum-pressure field, so it does not contain minimum and maximum for
each of the three measurements as claimed. -/
theorem empty_summary_missing_min_pressure :
    ¬ "min_pressure" ∈ emptySummaryResponse.map Prod.fst := by decide

/-- C7 (amended): a user with no sessions gets well-formed empty
responses from the summary, history and equipment endpoints — never an
error — but the empty summary shape carries only session metadata,
total count, the three averages, flowrate minimum and maximum, and the
type distribution; minimum and maximum for pressure and temperature are
absent. All carried values are null, zero or empty. -/
theorem empty_state_responses (db : DB) (u : ℕ) (h : userSessions db u = []) :
    summaryView db u none = .emptyShape emptySummaryResponse ∧
    historyView db u = [] ∧
    equipmentListView db u none = [] ∧
    emptySummaryResponse.map Prod.fst =
      ["session_id", "filename", "uploaded_at", "total_count", "avg_flowrate",
       "avg_pressure", "avg_temperature", "min_flowrate", "max_flowrate",
       "type_distribution"] ∧
    ∀ p ∈ emptySummaryResponse, p.2 = .null ∨ p.2 = .num 0 ∨ p.2 = .emptyDict := by
  have hs : userSessionsByRecency db u = [] := by
    unfold userSessionsByRecency
    rw [h]
    rfl
  have hl : latestSession db u = none := by
    unfold latestSession
    rw [hs]
    rfl
  refine ⟨?_, ?_, ?_, by decide, by decide⟩
  · unfold summaryView
    rw [hl]
  · unfold historyView
    rw [hs]
    rfl
  · unfold equipmentListView
    rw [hl]

/-- Witness for C7 (amended) at the empty database. -/
theorem empty_state_responses_witness :
    userSessions emptyDB 1 = [] ∧
    (summaryView emptyDB 1 none = .emptyShape emptySummaryResponse ∧
    historyView emptyDB 1 = [] ∧
    equipmentListView emptyDB 1 none = [] ∧
    emptySummaryResponse.map Prod.fst =
      ["session_id", "filename", "uploaded_at", "total_count", "avg_flowrate",
       "avg_pressure", "avg_temperature", "min_flowrate", "max_flowrate",
       "type_distribution"] ∧
    ∀ p ∈ emptySummaryResponse, p.2 = .null ∨ p.2 = .num 0 ∨ p.2 = .emptyDict) :=
  ⟨rfl, empty_state_responses emptyDB 1 rfl⟩

theorem byName_not_BA : ¬ byName eqRowB eqRowA := by
  unfold byName eqRowB eqRowA
  rw [String.le_iff_toList_le]
  decide

theorem queryEquipment_outOfOrder : queryEquipment outOfOrderDB 1 = [eqRowA, eqRowB] := by
  show List.insertionSort byName
    (((outOfOrderDB.equipment).filter (fun p => p.1 == 1)).map Prod.snd) = [eqRowA, eqRowB]
  have hfm : ((outOfOrderDB.equipment).filter (fun p => p.1 == 1)).map Prod.snd
      = [eqRowB, eqRowA] := by decide
  rw [hfm]
  show List.orderedInsert byName eqRowB (List.insertionSort byName [eqRowA]) = [eqRowA, eqRowB]
  have h1 : List.insertionSort byName [eqRowA] = [eqRowA] := rfl
  rw [h1]
  unfold List.orderedInsert
  rw [if_neg byName_not_BA]
  rfl

/-- C9: equipment rows served by the listing endpoint, and the rows
handed to the report renderer, are sorted by equipment name ascending
(they are a name-sorted permutation of the stored rows), and this is
not the upload order: a session stored as B then A is served as A
then B. -/
theorem equipment_listing_sorted_by_name (db : DB) (u sid : ℕ) (o : Option ℕ) :
    List.Sorted byName (queryEquipment db sid) ∧
    (queryEquipment db sid).Perm
      ((db.equipment.filter (fun p => p.1 == sid)).map Prod.snd) ∧
    List.Sorted byName (equipmentListView db u o) ∧
    (∀ r : Report, pdfReportView db u o = some r →
      ∃ sid2 : ℕ, r.eqTable.tail = ((queryEquipment db sid2).take 50).map eqRowCells) ∧
    queryEquipment outOfOrderDB 1 = [eqRowA, eqRowB] ∧
    (outOfOrderDB.equipment.filter (fun p => p.1 == 1)).map Prod.snd = [eqRowB, eqRowA] := by
  refine ⟨List.sorted_insertionSort byName _, List.perm_insertionSort byName _, ?_, ?_,
    queryEquipment_outOfOrder, by decide⟩
  · match o with
    | some sid2 =>
        show List.Sorted byName (if sessionOwned db sid2 u then queryEquipment db sid2 else [])
        by_cases hown : sessionOwned db sid2 u
        · rw [if_pos hown]
          exact List.sorted_insertionSort byName _
        · rw [if_neg hown]
          exact List.sorted_nil
    | none =>
        show List.Sorted byName
          (match latestSession db u with
           | some s => queryEquipment db s.id
           | none => [])
        match latestSession db u with
        | some s => exact List.sorted_insertionSort byName _
        | none => exact List.sorted_nil
  · intro r hr
    unfold pdfReportView at hr
    match hres : resolveSession db u o with
    | some s =>
        rw [hres] at hr
        refine ⟨s.id, ?_⟩
        have : r = generate_pdf_report s (queryEquipment db s.id)
            (calculate_summary (queryEquipment db s.id)) := by
          injection hr.symm
        rw [this]
        rfl
    | none => rw [hres] at hr; cases hr

/-- Witness for C9's report conjunct at the out-of-order database. -/
theorem equipment_listing_sorted_by_name_witness :
    List.Sorted byName (queryEquipment outOfOrderDB 1 ) ∧
    queryEquipment outOfOrderDB 1 = [eqRowA, eqRowB] :=
  ⟨(equipment_listing_sorted_by_name outOfOrderDB 1 1 none).1,
   (equipment_listing_sorted_by_name outOfOrderDB 1 1 none).2.2.2.2.1⟩

theorem userSessionsByRecency_perm (db : DB) (u : ℕ) :
    (userSessionsByRecency db u).Perm (userSessions db u) :=
  List.perm_insertionSort recencyDesc (userSessions db u)

theorem userSessionsByRecency_sorted (db : DB) (u : ℕ) :
    List.Sorted recencyDesc (userSessionsByRecency db u) :=
  List.sorted_insertionSort recencyDesc (userSessions db u)

theorem userSessions_sublist (db : DB) (u : ℕ) :
    (userSessions db u).Sublist db.sessions :=
  List.filter_sublist db.sessions

theorem sorted_map_nodup (db : DB) (u : ℕ) (f : Session → ℕ)
    (hnd : (db.sessions.map f).Nodup) :
    ((userSessionsByRecency db u).map f).Nodup := by
  have h1 : ((userSessions db u).map f).Nodup :=
    hnd.sublist ((userSessions_sublist db u).map f)
  exact (((userSessionsByRecency_perm db u).map f).nodup_iff).mpr h1

theorem cleanup_db_eq (db : DB) (u keep : ℕ) :
    (cleanup_old_sessions db u keep).sessions =
      db.sessions.filter (fun s => ! (deletedIds db u keep).contains s.id) ∧
    (cleanup_old_sessions db u keep).equipment =
      db.equipment.filter (fun p => ! (deletedIds db u keep).contains p.1) ∧
    (cleanup_old_sessions db u keep).nextSessionId = db.nextSessionId ∧
    (cleanup_old_sessions db u keep).clock = db.clock := by
  unfold cleanup_old_sessions
  by_cases hlt : keep < (userSessionsByRecency db u).length
  · rw [if_pos hlt]
    exact ⟨rfl, rfl, rfl, rfl⟩
  · rw [if_neg hlt]
    have hids : deletedIds db u keep = [] := by
      unfold deletedIds
      rw [List.drop_eq_nil_of_le (by omega)]
      rfl
    rw [hids]
    exact ⟨(List.filter_eq_self.mpr fun a _ => rfl).symm,
           (List.filter_eq_self.mpr fun a _ => rfl).symm, rfl, rfl⟩

theorem filter_out_drop (T D : List Session)
    (hnd : ((T ++ D).map Session.id).Nodup) :
    (T ++ D).filter (fun s => ! (D.map Session.id).contains s.id) = T := by
  rw [List.filter_append]
  rw [List.map_append] at hnd
  have hdisj : (T.map Session.id).Disjoint (D.map Session.id) :=
    (List.nodup_append.mp hnd).2.2
  have h1 : T.filter (fun s => ! (D.map Session.id).contains s.id) = T := by
    apply List.filter_eq_self.mpr
    intro s hs
    have hmem : s.id ∉ D.map Session.id :=
      fun hmem => hdisj (List.mem_map_of_mem Session.id hs) hmem
    simpa using hmem
  have h2 : D.filter (fun s => ! (D.map Session.id).contains s.id) = [] := by
    rw [List.filter_eq_nil_iff]
    intro s hs
    have hmem : s.id ∈ D.map Session.id := List.mem_map_of_mem Session.id hs
    simpa using hmem
  rw [h1, h2, List.append_nil]

theorem cleanup_survivors_perm (db : DB) (u keep : ℕ)
    (hnd : (db.sessions.map Session.id).Nodup) :
    (userSessions (cleanup_old_sessions db u keep) u).Perm
      ((userSessionsByRecency db u).take keep) := by
  have hSnd : ((userSessionsByRecency db u).map Session.id).Nodup :=
    sorted_map_nodup db u Session.id hnd
  have hsplit : (userSessionsByRecency db u).take keep ++
      (userSessionsByRecency db u).drop keep = userSessionsByRecency db u :=
    List.take_append_drop keep _
  have hfilterS : (userSessionsByRecency db u).filter
      (fun s => ! (deletedIds db u keep).contains s.id) =
      (userSessionsByRecency db u).take keep := by
    have hfd := filter_out_drop ((userSessionsByRecency db u).take keep)
      ((userSessionsByRecency db u).drop keep) (by rw [hsplit]; exact hSnd)
    rw [hsplit] at hfd
    exact hfd
  have hsurv : userSessions (cleanup_old_sessions db u keep) u =
      (userSessions db u).filter (fun s => ! (deletedIds db u keep).contains s.id) := by
    show (cleanup_old_sessions db u keep).sessions.filter (fun s => s.userId == u) = _
    rw [(cleanup_db_eq db u keep).1]
    unfold userSessions
    rw [List.filter_filter, List.filter_filter]
    exact List.filter_congr fun s _ => Bool.and_comm _ _
  rw [hsurv, ← hfilterS]
  exact ((userSessionsByRecency_perm db u).filter _).symm

theorem mem_drop_of_deleted (db : DB) (u keep : ℕ)
    (hnd : (db.sessions.map Session.id).Nodup)
    (d : Session) (hd : d ∈ userSessions db u)
    (hdnot : d ∉ userSessions (cleanup_old_sessions db u keep) u) :
    d ∈ (userSessionsByRecency db u).drop keep := by
  have hdS : d ∈ userSessionsByRecency db u :=
    (userSessionsByRecency_perm db u).mem_iff.mpr hd
  have hsplitmem : d ∈ (userSessionsByRecency db u).take keep ++
      (userSessionsByRecency db u).drop keep := by
    rw [List.take_append_drop]
    exact hdS
  rcases List.mem_append.mp hsplitmem with h | h
  · exact absurd ((cleanup_survivors_perm db u keep hnd).mem_iff.mpr h) hdnot
  · exact h

/-- C3: after the retention cleanup with a keep count of 5, at most 5
sessions remain for the user; the survivors come from the user's
sessions and every survivor is strictly more recent than every deleted
session (so they are exactly the 5 most recent), and no equipment row
of a deleted session remains. Concretely, after six sequential uploads
the five most recently created sessions remain and the oldest session's
equipment rows are gone. -/
theorem cleanup_retention_policy (db : DB) (u : ℕ) (hwf : db.WF) :
    (userSessions (cleanup_old_sessions db u 5) u).length =
      min 5 (userSessions db u).length ∧
    (∀ s ∈ userSessions (cleanup_old_sessions db u 5) u, s ∈ userSessions db u) ∧
    (∀ s ∈ userSessions (cleanup_old_sessions db u 5) u,
      ∀ d ∈ userSessions db u, d ∉ userSessions (cleanup_old_sessions db u 5) u →
        d.uploaded_at < s.uploaded_at) ∧
    (∀ d ∈ userSessions db u, d ∉ userSessions (cleanup_old_sessions db u 5) u →
      ∀ p ∈ (cleanup_old_sessions db u 5).equipment, p.1 ≠ d.id) ∧
    (afterUploads 6).sessions.map Session.id = [6, 5, 4, 3, 2] ∧
    (afterUploads 6).sessions.map Session.uploaded_at = [5, 4, 3, 2, 1] ∧
    (afterUploads 6).equipment.map Prod.fst = [2, 3, 4, 5, 6] ∧
    (afterUploads 5).sessions.map Session.id = [5, 4, 3, 2, 1] := by
  obtain ⟨-, -, hnd, hnt⟩ := hwf
  refine ⟨?_, ?_, ?_, ?_, by decide, by decide, by decide, by decide⟩
  · rw [(cleanup_survivors_perm db u 5 hnd).length_eq, List.length_take,
      (userSessionsByRecency_perm db u).length_eq]
  · intro s hs
    have h1 : s ∈ (userSessionsByRecency db u).take 5 :=
      (cleanup_survivors_perm db u 5 hnd).mem_iff.mp hs
    exact (userSessionsByRecency_perm db u).mem_iff.mp (List.mem_of_mem_take h1)
  · intro s hs d hd hdnot
    have hsT : s ∈ (userSessionsByRecency db u).take 5 :=
      (cleanup_survivors_perm db u 5 hnd).mem_iff.mp hs
    have hdD : d ∈ (userSessionsByRecency db u).drop 5 :=
      mem_drop_of_deleted db u 5 hnd d hd hdnot
    have hpairfull : List.Pairwise recencyDesc
        ((userSessionsByRecency db u).take 5 ++ (userSessionsByRecency db u).drop 5) := by
      rw [List.take_append_drop]
      exact userSessionsByRecency_sorted db u
    have hpair : recencyDesc s d := (List.pairwise_append.mp hpairfull).2.2 s hsT d hdD
    have hTnd : (((userSessionsByRecency db u).take 5).map Session.uploaded_at ++
        ((userSessionsByRecency db u).drop 5).map Session.uploaded_at).Nodup := by
      rw [← List.map_append, List.take_append_drop]
      exact sorted_map_nodup db u Session.uploaded_at hnt
    have hne : d.uploaded_at ≠ s.uploaded_at := by
      intro heq
      exact (List.nodup_append.mp hTnd).2.2
        (List.mem_map_of_mem Session.uploaded_at hsT)
        (heq ▸ List.mem_map_of_mem Session.uploaded_at hdD)
    exact lt_of_le_of_ne hpair hne
  · intro d hd hdnot p hp heq
    have hdD : d ∈ (userSessionsByRecency db u).drop 5 :=
      mem_drop_of_deleted db u 5 hnd d hd hdnot
    have hdid : d.id ∈ deletedIds db u 5 := List.mem_map_of_mem Session.id hdD
    rw [(cleanup_db_eq db u 5).2.1] at hp
    have hmem := List.mem_filter.mp hp
    rw [heq] at hmem
    simp [hdid] at hmem

/-- Witness for C3 at the six-upload scenario state. -/
theorem cleanup_retention_policy_witness :
    (afterUploads 6).WF ∧
    (userSessions (cleanup_old_sessions (afterUploads 6) 1 5) 1).length =
      min 5 (userSessions (afterUploads 6) 1).length :=
  ⟨by decide, (cleanup_retention_policy (afterUploads 6) 1 (by decide)).1⟩

theorem dbAfterSave_sessions (db : DB) (u : ℕ) (filename : String) (rows : List Equip)
    (hids : ∀ s ∈ db.sessions, s.id < db.nextSessionId) :
    (dbAfterSave db u filename rows).sessions =
      { newSessionOf db u filename rows.length with
        summary_json := some (uploadSummary db u filename rows) } :: db.sessions := by
  show ((newSessionOf db u filename rows.length :: db.sessions).map (fun s =>
      if s.id = db.nextSessionId then
        { s with summary_json := some (uploadSummary db u filename rows) }
      else s)) = _
  rw [List.map_cons,
    if_pos (show (newSessionOf db u filename rows.length).id = db.nextSessionId from rfl)]
  congr 1
  have hmap : db.sessions.map (fun s =>
      if s.id = db.nextSessionId then
        { s with summary_json := some (uploadSummary db u filename rows) }
      else s) = db.sessions.map (fun s => s) := by
    apply List.map_congr_left
    intro s hs
    rw [if_neg]
    have := hids s hs
    omega
  rw [hmap]
  simp

theorem top_not_deleted (db : DB) (u keep : ℕ) (x : Session)
    (hkeep : 1 ≤ keep)
    (hnd : (db.sessions.map Session.id).Nodup)
    (hx : x ∈ userSessions db u)
    (hmax : ∀ s ∈ userSessions db u, s ≠ x → s.uploaded_at < x.uploaded_at) :
    x.id ∉ deletedIds db u keep := by
  intro hmem
  unfold deletedIds at hmem
  rcases List.mem_map.mp hmem with ⟨d, hdD, hdid⟩
  have hdS : d ∈ userSessionsByRecency db u := List.mem_of_mem_drop hdD
  have hdU : d ∈ userSessions db u := (userSessionsByRecency_perm db u).mem_iff.mp hdS
  have hdsess : d ∈ db.sessions := (userSessions_sublist db u).subset hdU
  have hxsess : x ∈ db.sessions := (userSessions_sublist db u).subset hx
  have hdx : d = x := List.inj_on_of_nodup_map hnd hdsess hxsess hdid
  subst hdx
  have hlenS : keep < (userSessionsByRecency db u).length := by
    by_contra hle
    rw [List.drop_eq_nil_of_le (by omega)] at hdD
    cases hdD
  have htake_ne : (userSessionsByRecency db u).take keep ≠ [] := by
    intro h
    have hlen := congrArg List.length h
    rw [List.length_take] at hlen
    simp only [List.length_nil] at hlen
    omega
  obtain ⟨a, ha⟩ := List.exists_mem_of_ne_nil _ htake_ne
  have hpairfull : List.Pairwise recencyDesc
      ((userSessionsByRecency db u).take keep ++ (userSessionsByRecency db u).drop keep) := by
    rw [List.take_append_drop]
    exact userSessionsByRecency_sorted db u
  have hax : recencyDesc a d := (List.pairwise_append.mp hpairfull).2.2 a ha d hdD
  have haU : a ∈ userSessions db u :=
    (userSessionsByRecency_perm db u).mem_iff.mp (List.mem_of_mem_take ha)
  have hSnodup : (userSessionsByRecency db u).Nodup :=
    (sorted_map_nodup db u Session.id hnd).of_map
  have hanex : a ≠ d := by
    intro h
    subst h
    have hnodsplit : List.Nodup
        ((userSessionsByRecency db u).take keep ++ (userSessionsByRecency db u).drop keep) := by
      rw [List.take_append_drop]
      exact hSnodup
    exact (List.nodup_append.mp hnodsplit).2.2 ha hdD
  have hlt := hmax a haU hanex
  have hle2 : d.uploaded_at ≤ a.uploaded_at := hax
  omega

theorem uploadCSV_created (db : DB) (u : ℕ) (filename : String) (file : CSVFile)
    (rows : List Equip) (hwf : db.WF)
    (hcsv : strEndsWith filename ".csv" = true)
    (hparse : parse_csv file = .ok rows) :
    uploadCSV db u filename file =
      (.created db.nextSessionId rows.length (uploadSummary db u filename rows),
       uploadFinalDB db u filename rows) ∧
    (uploadFinalDB db u filename rows).sessions.filter
        (fun s => s.id == db.nextSessionId) =
      [{ newSessionOf db u filename rows.length with
         summary_json := some (uploadSummary db u filename rows) }] ∧
    queryEquipment (uploadFinalDB db u filename rows) db.nextSessionId =
      queryEquipment (dbAfterInsert db u filename rows) db.nextSessionId ∧
    ((uploadFinalDB db u filename rows).equipment.filter
        (fun p => p.1 == db.nextSessionId)).length = rows.length ∧
    (uploadSummary db u filename rows).total_count = rows.length := by
  obtain ⟨hbounds, hequips, hnd, hnt⟩ := hwf
  have hids : ∀ s ∈ db.sessions, s.id < db.nextSessionId := fun s hs => (hbounds s hs).1
  set sid := db.nextSessionId with hsid_def
  set x : Session :=
    { newSessionOf db u filename rows.length with
      summary_json := some (uploadSummary db u filename rows) } with hx_def
  set db2 : DB := dbAfterSave db u filename rows with hdb2_def
  have hsave : db2.sessions = x :: db.sessions := dbAfterSave_sessions db u filename rows hids
  have hnd2 : (db2.sessions.map Session.id).Nodup := by
    rw [hsave, List.map_cons]
    refine List.nodup_cons.mpr ⟨?_, hnd⟩
    intro hmem
    rcases List.mem_map.mp hmem with ⟨s, hs, hid⟩
    have := hids s hs
    have hxid : x.id = sid := rfl
    omega
  have huser : userSessions db2 u = x :: userSessions db u := by
    unfold userSessions
    rw [hsave]
    exact List.filter_cons_of_pos (beq_iff_eq.mpr rfl)
  have hx2 : x ∈ userSessions db2 u := by
    rw [huser]
    exact List.mem_cons_self x _
  have hmax2 : ∀ s ∈ userSessions db2 u, s ≠ x → s.uploaded_at < x.uploaded_at := by
    intro s hs hne
    rw [huser] at hs
    rcases List.mem_cons.mp hs with h | h
    · exact absurd h hne
    · have hmem : s ∈ db.sessions := (userSessions_sublist db u).subset h
      have := (hbounds s hmem).2
      have hxat : x.uploaded_at = db.clock := rfl
      omega
  have htop : sid ∉ deletedIds db2 u 5 :=
    top_not_deleted db2 u 5 x (by omega) hnd2 hx2 hmax2
  have hcontains : (deletedIds db2 u 5).contains sid = false := by
    simpa using htop
  have hxid : x.id = sid := rfl
  have hfinal_sess : (uploadFinalDB db u filename rows).sessions =
      x :: db.sessions.filter (fun s => ! (deletedIds db2 u 5).contains s.id) := by
    show (cleanup_old_sessions db2 u 5).sessions = _
    rw [(cleanup_db_eq db2 u 5).1, hsave]
    exact List.filter_cons_of_pos (by rw [hxid, hcontains]; rfl)
  have htail : (db.sessions.filter
      (fun s => ! (deletedIds db2 u 5).contains s.id)).filter
      (fun s => s.id == sid) = [] := by
    rw [List.filter_eq_nil_iff]
    intro s hs
    have hmem : s ∈ db.sessions := (List.mem_filter.mp hs).1
    have := hids s hmem
    simp only [beq_iff_eq]
    omega
  have hsess_filter : (uploadFinalDB db u filename rows).sessions.filter
      (fun s => s.id == sid) = [x] := by
    rw [hfinal_sess,
      List.filter_cons_of_pos (p := fun s : Session => s.id == sid) (beq_iff_eq.mpr hxid),
      htail]
  have hequip_filter : (uploadFinalDB db u filename rows).equipment.filter
      (fun p => p.1 == sid) =
      (dbAfterInsert db u filename rows).equipment.filter (fun p => p.1 == sid) := by
    show (cleanup_old_sessions db2 u 5).equipment.filter (fun p => p.1 == sid) = _
    rw [(cleanup_db_eq db2 u 5).2.1]
    have hsame : db2.equipment = (dbAfterInsert db u filename rows).equipment := rfl
    rw [hsame, List.filter_filter]
    apply List.filter_congr
    intro p _
    by_cases hps : p.1 = sid
    · rw [hps]
      simp [hcontains, htop]
    · have hb : (p.1 == sid) = false := by
        simp [hps]
      rw [hb]
      simp
  have hnew : (dbAfterInsert db u filename rows).equipment.filter
      (fun p => p.1 == sid) = rows.map (fun r => (sid, r)) := by
    show (db.equipment ++ rows.map fun r => (sid, r)).filter (fun p => p.1 == sid) = _
    rw [List.filter_append]
    have h1 : db.equipment.filter (fun p => p.1 == sid) = [] := by
      rw [List.filter_eq_nil_iff]
      intro p hp
      have := hequips p hp
      simp only [beq_iff_eq]
      omega
    have h2 : (rows.map fun r => (sid, r)).filter (fun p => p.1 == sid) =
        rows.map fun r => (sid, r) := by
      rw [List.filter_eq_self]
      intro p hp
      rcases List.mem_map.mp hp with ⟨r, _, rfl⟩
      simp
    rw [h1, h2, List.nil_append]
  have hquery : queryEquipment (uploadFinalDB db u filename rows) sid =
      queryEquipment (dbAfterInsert db u filename rows) sid := by
    unfold queryEquipment
    rw [hequip_filter]
  refine ⟨?_, hsess_filter, hquery, ?_, ?_⟩
  · unfold uploadCSV
    rw [hcsv, hparse]
    simp
  · rw [hequip_filter, hnew, List.length_map]
  · show (calculate_summary (queryEquipment (dbAfterInsert db u filename rows) sid)).total_count
      = rows.length
    rw [total_count_eq_length]
    unfold queryEquipment
    rw [List.length_insertionSort, List.length_map, hnew, List.length_map]

/-- C5: `calculate_summary` is a deterministic function of the row
multiset: recomputation on the same rows is identical, and any
permutation of the rows yields the same statistics and type counts.
On a successful upload the cached summary equals a fresh recomputation
from the session's persisted rows in the final database state. -/
theorem summary_deterministic_and_cached :
    (∀ rows : List Equip, calculate_summary rows = calculate_summary rows) ∧
    (∀ rows rows2 : List Equip, rows.Perm rows2 →
      (calculate_summary rows).total_count = (calculate_summary rows2).total_count ∧
      (calculate_summary rows).avg_flowrate = (calculate_summary rows2).avg_flowrate ∧
      (calculate_summary rows).avg_pressure = (calculate_summary rows2).avg_pressure ∧
      (calculate_summary rows).avg_temperature = (calculate_summary rows2).avg_temperature ∧
      (calculate_summary rows).min_flowrate = (calculate_summary rows2).min_flowrate ∧
      (calculate_summary rows).max_flowrate = (calculate_summary rows2).max_flowrate ∧
      (calculate_summary rows).min_pressure = (calculate_summary rows2).min_pressure ∧
      (calculate_summary rows).max_pressure = (calculate_summary rows2).max_pressure ∧
      (calculate_summary rows).min_temperature = (calculate_summary rows2).min_temperature ∧
      (calculate_summary rows).max_temperature = (calculate_summary rows2).max_temperature ∧
      ∀ t, List.lookup t (calculate_summary rows).type_distribution =
        List.lookup t (calculate_summary rows2).type_distribution) ∧
    (∀ (db : DB) (u : ℕ) (filename : String) (file : CSVFile) (rows : List Equip),
      db.WF → strEndsWith filename ".csv" = true → parse_csv file = .ok rows →
      ∃ sm : Summary,
        uploadCSV db u filename file =
          (.created db.nextSessionId rows.length sm, uploadFinalDB db u filename rows) ∧
        ((uploadFinalDB db u filename rows).sessions.filter
            (fun s => s.id == db.nextSessionId)).map Session.summary_json = [some sm] ∧
        sm = calculate_summary
          (queryEquipment (uploadFinalDB db u filename rows) db.nextSessionId)) := by
  refine ⟨fun rows => rfl, fun rows rows2 h => calculate_summary_perm h, ?_⟩
  intro db u filename file rows hwf hcsv hparse
  obtain ⟨h1, h2, h3, -, -⟩ := uploadCSV_created db u filename file rows hwf hcsv hparse
  refine ⟨uploadSummary db u filename rows, h1, ?_, ?_⟩
  · rw [h2]
    rfl
  · rw [h3]
    rfl

/-- Witness for C5's upload conjunct at the empty database. -/
theorem summary_deterministic_and_cached_witness :
    emptyDB.WF ∧ strEndsWith "a.csv" ".csv" = true ∧
    parse_csv sampleCSV = .ok sampleRows ∧
    ∃ sm : Summary,
      uploadCSV emptyDB 1 "a.csv" sampleCSV =
        (.created emptyDB.nextSessionId sampleRows.length sm,
         uploadFinalDB emptyDB 1 "a.csv" sampleRows) ∧
      ((uploadFinalDB emptyDB 1 "a.csv" sampleRows).sessions.filter
          (fun s => s.id == emptyDB.nextSessionId)).map Session.summary_json = [some sm] ∧
      sm = calculate_summary
        (queryEquipment (uploadFinalDB emptyDB 1 "a.csv" sampleRows) emptyDB.nextSessionId) :=
  ⟨by decide, by decide, by rfl,
   summary_deterministic_and_cached.2.2 emptyDB 1 "a.csv" sampleCSV sampleRows
     (by decide) (by decide) (by rfl)⟩

/-- C10: a successful upload responds with the parsed row count, stores
that count as the session's record count, bulk-creates exactly that
many equipment rows for the new session, and caches a summary whose
total count is that same number. -/
theorem upload_record_count_consistency (db : DB) (u : ℕ) (filename : String)
    (file : CSVFile) (rows : List Equip) (hwf : db.WF)
    (hcsv : strEndsWith filename ".csv" = true)
    (hparse : parse_csv file = .ok rows) :
    ∃ sm : Summary,
      uploadCSV db u filename file =
        (.created db.nextSessionId rows.length sm, uploadFinalDB db u filename rows) ∧
      ((uploadFinalDB db u filename rows).sessions.filter
          (fun s => s.id == db.nextSessionId)).map Session.record_count = [rows.length] ∧
      ((uploadFinalDB db u filename rows).equipment.filter
          (fun p => p.1 == db.nextSessionId)).length = rows.length ∧
      sm.total_count = rows.length := by
  obtain ⟨h1, h2, -, h4, h5⟩ := uploadCSV_created db u filename file rows hwf hcsv hparse
  refine ⟨uploadSummary db u filename rows, h1, ?_, h4, h5⟩
  rw [h2]
  rfl

/-- Witness for C10 at the empty database and the one-row sample. -/
theorem upload_record_count_consistency_witness :
    emptyDB.WF ∧ strEndsWith "a.csv" ".csv" = true ∧
    parse_csv sampleCSV = .ok sampleRows ∧
    ∃ sm : Summary,
      uploadCSV emptyDB 1 "a.csv" sampleCSV =
        (.created emptyDB.nextSessionId sampleRows.length sm,
         uploadFinalDB emptyDB 1 "a.csv" sampleRows) ∧
      ((uploadFinalDB emptyDB 1 "a.csv" sampleRows).sessions.filter
          (fun s => s.id == emptyDB.nextSessionId)).map Session.record_count =
        [sampleRows.length] ∧
      ((uploadFinalDB emptyDB 1 "a.csv" sampleRows).equipment.filter
          (fun p => p.1 == emptyDB.nextSessionId)).length = sampleRows.length ∧
      sm.total_count = sampleRows.length :=
  ⟨by decide, by decide, by rfl,
   upload_record_count_consistency emptyDB 1 "a.csv" sampleCSV sampleRows
     (by decide) (by decide) (by rfl)⟩

end EquipViz
